import Mathlib

/-!
Verification of the repository Dictum, whose single source file is
src/SherpaOnnx-Bridging-Header.h: a bridging header consisting of a
header-guard pattern (ifndef / define / body / endif) around one
object-style inclusion directive for the external header
"sherpa-onnx/c-api/c-api.h".

We give a shallow embedding of the C-preprocessor behaviour of that file:
a line datatype, a preprocessor state (defined macros, already included
files, emitted declarations, stack of active conditionals), a fallible
step function, and the file itself transcribed line by line.  The content
of the external header is not part of this repository, so it is modelled
abstractly as a function from file paths to the list of declarations that
file contributes.
-/

namespace Dictum

/-- One line of a preprocessor source file, as relevant to the bridging
header: comments, blank lines, the guard directives, the inclusion
directive, and (so that absence of failure is expressible) a directive
that raises a preprocessing error. -/
inductive PPLine where
  | comment (text : String)
  | blank
  | ifndef (m : String)
  | define (m : String)
  | importDirective (path : String)
  | errorDirective (msg : String)
  | endif
deriving DecidableEq, Repr

/-- The guard macro of the bridging header. -/
def guardMacro : String := "SHERPAONNX_BRIDGING_HEADER_H_"

/-- The path named by the inclusion directive of the bridging header. -/
def capiPath : String := "sherpa-onnx/c-api/c-api.h"

/-- The file name of the bridging header itself. -/
def bridgingHeaderName : String := "SherpaOnnx-Bridging-Header.h"

/-- The file src/SherpaOnnx-Bridging-Header.h, transcribed line by line. -/
def bridgingHeader : List PPLine :=
  [ .comment " SherpaOnnx-Bridging-Header.h",
    .comment " Bridging header for sherpa-onnx C API in Dictum",
    .comment "",
    .comment " This header imports the C API functions so they can be used from Swift",
    .blank,
    .ifndef guardMacro,
    .define guardMacro,
    .blank,
    .importDirective "sherpa-onnx/c-api/c-api.h",
    .blank,
    .endif ]

/-- Preprocessor state: the set of defined macros, the set of files already
processed by an object-style inclusion (which includes a file at most once),
the declarations emitted so far, and the stack of surrounding conditional
truth values. -/
structure PPState where
  defined : List String
  imported : List String
  emitted : List String
  condStack : List Bool
deriving DecidableEq, Repr

/-- Whether the current position is in an active region: every surrounding
conditional must be true. -/
def PPState.active (s : PPState) : Bool := s.condStack.all (fun b => b)

/-- Modelled from the spec: the external header "sherpa-onnx/c-api/c-api.h"
is not part of this repository, so the declarations any external file
contributes are an abstract parameter `ext : String → List String`.

One preprocessing step.  Comments and blanks emit nothing; an ifndef pushes
the (negated) definedness test; a define adds a macro when active; an
object-style inclusion, when active and the file was not yet included,
records the file and emits its declarations; an error directive fails when
active; an endif pops the conditional stack and fails if it is empty. -/
def step (ext : String → List String) (s : PPState) :
    PPLine → Except String PPState
  | .comment _ => .ok s
  | .blank => .ok s
  | .ifndef m => .ok { s with condStack := (!(s.defined.contains m)) :: s.condStack }
  | .define m =>
      .ok (if s.active then { s with defined := m :: s.defined } else s)
  | .importDirective p =>
      .ok (if s.active then
             (if s.imported.contains p then s
              else { s with imported := p :: s.imported,
                            emitted := s.emitted ++ ext p })
           else s)
  | .errorDirective msg =>
      if s.active then .error msg else .ok s
  | .endif =>
      match s.condStack with
      | [] => .error "unbalanced conditional"
      | _ :: rest => .ok { s with condStack := rest }

/-- Process a list of lines in order from a given state, stopping at the
first failing line. -/
def processLines (ext : String → List String) :
    List PPLine → PPState → Except String PPState
  | [], s => .ok s
  | l :: ls, s =>
    match step ext s l with
    | .error e => .error e
    | .ok s1 => processLines ext ls s1

/-- Process the bridging header once from a given state. -/
def processFile (ext : String → List String) (s : PPState) :
    Except String PPState :=
  processLines ext bridgingHeader s

theorem processLines_nil (ext : String → List String) (s : PPState) :
    processLines ext [] s = .ok s := rfl

theorem processLines_cons (ext : String → List String) (l : PPLine)
    (ls : List PPLine) (s : PPState) :
    processLines ext (l :: ls) s =
      match step ext s l with
      | .error e => .error e
      | .ok s1 => processLines ext ls s1 := rfl

/-- The net effect of one processing of the bridging header, as a total
function: when the position is active and the guard macro is not yet
defined, the guard macro becomes defined and the external header is
included (emitting its declarations unless it was already included);
otherwise the state is unchanged. -/
def runOnce (ext : String → List String) (s : PPState) : PPState :=
  if s.active && !(s.defined.contains guardMacro) then
    { s with defined := guardMacro :: s.defined,
             imported := if s.imported.contains capiPath then s.imported
                         else capiPath :: s.imported,
             emitted := if s.imported.contains capiPath then s.emitted
                        else s.emitted ++ ext capiPath }
  else s

theorem processFile_eq_runOnce (ext : String → List String) (s : PPState) :
    processFile ext s = .ok (runOnce ext s) := by
  rcases s with ⟨dm, im, em, cs⟩
  simp only [processFile, processLines, bridgingHeader, step, runOnce,
    PPState.active, guardMacro, capiPath]
  by_cases hg : "SHERPAONNX_BRIDGING_HEADER_H_" ∈ dm
  · simp [hg]
  · by_cases ha : false ∈ cs
    · simp [hg, ha]
    · by_cases hi : "sherpa-onnx/c-api/c-api.h" ∈ im <;> simp [hg, ha, hi]

/-- The processing of the bridging header is unchanged when the guard macro
is already defined. -/
theorem runOnce_of_guard_defined (ext : String → List String) (s : PPState)
    (h : guardMacro ∈ s.defined) : runOnce ext s = s := by
  simp [runOnce, h]

/-- The processing of the bridging header is unchanged in an inactive
region. -/
theorem runOnce_inactive (ext : String → List String) (s : PPState)
    (ha : ¬ s.active = true) : runOnce ext s = s := by
  simp [runOnce, ha]

/-- In an active region with the guard macro undefined, one processing of
the bridging header defines the guard macro and includes the external
header. -/
theorem runOnce_expand (ext : String → List String) (s : PPState)
    (ha : s.active = true) (hg : guardMacro ∉ s.defined) :
    runOnce ext s =
      { s with defined := guardMacro :: s.defined,
               imported := if s.imported.contains capiPath then s.imported
                           else capiPath :: s.imported,
               emitted := if s.imported.contains capiPath then s.emitted
                          else s.emitted ++ ext capiPath } := by
  simp [runOnce, ha, hg]

/-- Processing the bridging header is idempotent on states. -/
theorem runOnce_idem (ext : String → List String) (s : PPState) :
    runOnce ext (runOnce ext s) = runOnce ext s := by
  by_cases h : guardMacro ∈ s.defined
  · rw [runOnce_of_guard_defined ext s h, runOnce_of_guard_defined ext s h]
  · by_cases ha : s.active = true
    · have h1 : runOnce ext s =
          { s with defined := guardMacro :: s.defined,
                   imported := if s.imported.contains capiPath then s.imported
                               else capiPath :: s.imported,
                   emitted := if s.imported.contains capiPath then s.emitted
                              else s.emitted ++ ext capiPath } := by
        simp [runOnce, h, ha]
      rw [h1, runOnce_of_guard_defined]
      exact List.mem_cons_self _ _
    · have h1 : runOnce ext s = s := by simp [runOnce, ha]
      rw [h1, h1]

def PPLine.isComment : PPLine → Bool
  | .comment _ => true
  | _ => false

def PPLine.isBlank : PPLine → Bool
  | .blank => true
  | _ => false

def PPLine.isIfndef : PPLine → Bool
  | .ifndef _ => true
  | _ => false

def PPLine.isDefine : PPLine → Bool
  | .define _ => true
  | _ => false

def PPLine.isImportDirective : PPLine → Bool
  | .importDirective _ => true
  | _ => false

def PPLine.isErrorDirective : PPLine → Bool
  | .errorDirective _ => true
  | _ => false

def PPLine.isEndif : PPLine → Bool
  | .endif => true
  | _ => false

/-- Modelled from the spec: a direct import of the external header,
as a one-line file consisting of the inclusion directive alone, following
the spec's description of the interface as "the textual inclusion of the
external library's public C header". -/
def directImport (ext : String → List String) (s : PPState) :
    Except String PPState :=
  processLines ext [.importDirective capiPath] s

theorem directImport_eq (ext : String → List String) (s : PPState) :
    directImport ext s =
      .ok (if s.active then
             (if s.imported.contains capiPath then s
              else { s with imported := capiPath :: s.imported,
                            emitted := s.emitted ++ ext capiPath })
           else s) := by
  simp only [directImport, processLines, step]

/-- The files imported by a list of preprocessor lines. -/
def fileImports (ls : List PPLine) : List String :=
  ls.filterMap (fun l =>
    match l with
    | .importDirective p => some p
    | _ => none)

/-- The repository-level inclusion edges: the bridging header is the only
file of this repository, and it imports exactly the external header; no
other file of the repository exists to contribute edges. -/
def includesOf (f : String) : List String :=
  if f = bridgingHeaderName then fileImports bridgingHeader else []

/-- A concrete model of the external header contents, for instantiations:
every file contributes one declaration. -/
def extW : String → List String := fun _ => ["SherpaOnnxDecl"]

/-- The empty initial preprocessor state. -/
def s0 : PPState := { defined := [], imported := [], emitted := [], condStack := [] }

/-- The state after one processing of the bridging header from `s0` under
the model `extW`. -/
def s1 : PPState :=
  { defined := ["SHERPAONNX_BRIDGING_HEADER_H_"],
    imported := ["sherpa-onnx/c-api/c-api.h"],
    emitted := ["SherpaOnnxDecl"],
    condStack := [] }

/-- C1: including the bridging header any number of times beyond the first
has the same effect as including it once: whenever one processing of the
file turns state `s` into `s₁`, a further processing of the file from `s₁`
succeeds with exactly the state `s₁` again — it emits nothing and changes
nothing, because the guard macro is by then defined (or the first
processing was itself inactive and changed nothing). -/
theorem c1_repeated_inclusion_noop (ext : String → List String)
    (s s₁ : PPState) (h : processFile ext s = .ok s₁) :
    processFile ext s₁ = .ok s₁ := by
  have h0 := processFile_eq_runOnce ext s
  rw [h] at h0
  have hs : s₁ = runOnce ext s := by
    injection h0
  rw [hs, processFile_eq_runOnce, runOnce_idem]

/-- Witness for C1 at a concrete input. -/
theorem c1_witness : processFile extW s1 = .ok s1 :=
  c1_repeated_inclusion_noop extW s0 s1 rfl

/-- C2: when the guard macro is not yet defined (a first processing), the
bridging header's observable effect on the visible external declarations
and on the set of included files is exactly that of a direct import of the
external header "sherpa-onnx/c-api/c-api.h". -/
theorem c2_refines_direct_import (ext : String → List String)
    (s s₁ s₂ : PPState) (hg : guardMacro ∉ s.defined)
    (h1 : processFile ext s = .ok s₁) (h2 : directImport ext s = .ok s₂) :
    s₁.emitted = s₂.emitted ∧ s₁.imported = s₂.imported := by
  have h0 := processFile_eq_runOnce ext s
  rw [h1] at h0
  have hs1 : s₁ = runOnce ext s := by injection h0
  have h3 := directImport_eq ext s
  rw [h2] at h3
  have hs2 : s₂ =
      if s.active then
        (if s.imported.contains capiPath then s
         else { s with imported := capiPath :: s.imported,
                       emitted := s.emitted ++ ext capiPath })
      else s := by injection h3
  subst hs1 hs2
  by_cases ha : s.active = true
  · rw [runOnce_expand ext s ha hg]
    by_cases hi : capiPath ∈ s.imported <;> simp [ha, hi]
  · rw [runOnce_inactive ext s ha]
    simp [ha]

/-- Witness for C2 at a concrete input. -/
theorem c2_witness :
    s1.emitted = (PPState.mk [] ["sherpa-onnx/c-api/c-api.h"]
        ["SherpaOnnxDecl"] []).emitted ∧
    s1.imported = (PPState.mk [] ["sherpa-onnx/c-api/c-api.h"]
        ["SherpaOnnxDecl"] []).imported :=
  c2_refines_direct_import extW s0 s1
    (PPState.mk [] ["sherpa-onnx/c-api/c-api.h"] ["SherpaOnnxDecl"] [])
    (by simp [guardMacro, s0]) rfl rfl

/-- C3: the bridging header contributes no declaration of its own: a
processing either emits nothing or emits exactly the declarations of the
external header, unchanged; and the only macro it can add to the defined
set is its own guard macro. -/
theorem c3_no_own_declarations (ext : String → List String)
    (s s₁ : PPState) (h : processFile ext s = .ok s₁) :
    (s₁.emitted = s.emitted ∨ s₁.emitted = s.emitted ++ ext capiPath) ∧
    (∀ m, m ∈ s₁.defined → m ∈ s.defined ∨ m = guardMacro) := by
  have h0 := processFile_eq_runOnce ext s
  rw [h] at h0
  have hs : s₁ = runOnce ext s := by injection h0
  subst hs
  constructor
  · by_cases hg : guardMacro ∈ s.defined
    · rw [runOnce_of_guard_defined ext s hg]
      exact Or.inl rfl
    · by_cases ha : s.active = true
      · rw [runOnce_expand ext s ha hg]
        by_cases hi : capiPath ∈ s.imported <;> simp [hi]
      · rw [runOnce_inactive ext s ha]
        exact Or.inl rfl
  · intro m hm
    by_cases hg : guardMacro ∈ s.defined
    · rw [runOnce_of_guard_defined ext s hg] at hm
      exact Or.inl hm
    · by_cases ha : s.active = true
      · rw [runOnce_expand ext s ha hg] at hm
        rcases List.mem_cons.mp hm with h1 | h1
        · exact Or.inr h1
        · exact Or.inl h1
      · rw [runOnce_inactive ext s ha] at hm
        exact Or.inl hm

/-- Witness for C3 at a concrete input. -/
theorem c3_witness :
    (s1.emitted = s0.emitted ∨ s1.emitted = s0.emitted ++ extW capiPath) ∧
    (∀ m, m ∈ s1.defined → m ∈ s0.defined ∨ m = guardMacro) :=
  c3_no_own_declarations extW s0 s1 rfl

/-- C4: apart from comments and blank lines, the file consists of exactly
the header-guard pattern around one import directive: one ifndef, one
define of the same guard macro, one import directive, one endif, in that
order, and every line of the file is one of these or a comment or blank. -/
theorem c4_file_shape :
    bridgingHeader.filter (fun l => !(l.isComment || l.isBlank)) =
      [.ifndef guardMacro, .define guardMacro,
       .importDirective capiPath, .endif] ∧
    bridgingHeader.countP (fun l => l.isImportDirective) = 1 ∧
    bridgingHeader.countP (fun l => l.isIfndef) = 1 ∧
    bridgingHeader.countP (fun l => l.isDefine) = 1 ∧
    bridgingHeader.countP (fun l => l.isEndif) = 1 ∧
    bridgingHeader.all
      (fun l => l.isComment || l.isBlank || l.isIfndef || l.isDefine ||
        l.isImportDirective || l.isEndif) = true := by
  decide

/-- C5: the file contains no error directive, and processing it from any
state under any model of the external header succeeds (the conditional
stack is used in a balanced way, so no failure can arise from this file). -/
theorem c5_never_fails :
    bridgingHeader.all (fun l => !(l.isErrorDirective)) = true ∧
    ∀ ext s, ∃ s₁, processFile ext s = Except.ok s₁ := by
  refine ⟨by decide, fun ext s => ⟨runOnce ext s, processFile_eq_runOnce ext s⟩⟩

/-- C6: processing the bridging header is a deterministic pure function of
the incoming preprocessor state and of the content of the imported external
header: two runs from equal states with pointwise-equal external content
produce equal results. -/
theorem c6_deterministic (ext₁ ext₂ : String → List String)
    (s s' : PPState) (hext : ∀ p, ext₁ p = ext₂ p) (hs : s = s') :
    processFile ext₁ s = processFile ext₂ s' := by
  subst hs
  have he : ext₁ = ext₂ := funext hext
  rw [he]

/-- Witness for C6 at a concrete input. -/
theorem c6_witness : processFile extW s0 = processFile extW s0 :=
  c6_deterministic extW extW s0 s0 (fun _ => rfl) rfl

/-- C7: the guard-macro invariant: after a top-level processing of the
file the guard macro is defined; the guard macro is the only macro the
file can define; and once the guard macro is defined, every further
processing of the file preserves it. -/
theorem c7_guard_invariant (ext : String → List String) (s s₁ : PPState)
    (h : processFile ext s = .ok s₁) :
    (s.condStack = [] → guardMacro ∈ s₁.defined) ∧
    (∀ m, m ∈ s₁.defined → m ∈ s.defined ∨ m = guardMacro) ∧
    (guardMacro ∈ s.defined → guardMacro ∈ s₁.defined) := by
  have h0 := processFile_eq_runOnce ext s
  rw [h] at h0
  have hs : s₁ = runOnce ext s := by injection h0
  subst hs
  refine ⟨?_, ?_, ?_⟩
  · intro htop
    by_cases hg : guardMacro ∈ s.defined
    · rw [runOnce_of_guard_defined ext s hg]; exact hg
    · have ha : s.active = true := by simp [PPState.active, htop]
      rw [runOnce_expand ext s ha hg]
      exact List.mem_cons_self _ _
  · intro m hm
    by_cases hg : guardMacro ∈ s.defined
    · rw [runOnce_of_guard_defined ext s hg] at hm
      exact Or.inl hm
    · by_cases ha : s.active = true
      · rw [runOnce_expand ext s ha hg] at hm
        rcases List.mem_cons.mp hm with h1 | h1
        · exact Or.inr h1
        · exact Or.inl h1
      · rw [runOnce_inactive ext s ha] at hm
        exact Or.inl hm
  · intro hg
    rw [runOnce_of_guard_defined ext s hg]; exact hg

/-- Witness for C7 at a concrete input. -/
theorem c7_witness :
    (s0.condStack = [] → guardMacro ∈ s1.defined) ∧
    (∀ m, m ∈ s1.defined → m ∈ s0.defined ∨ m = guardMacro) ∧
    (guardMacro ∈ s0.defined → guardMacro ∈ s1.defined) :=
  c7_guard_invariant extW s0 s1 rfl

/-- C8: processing the bridging header always terminates: the only file it
imports is the external header, which is not the bridging header itself;
the repository-level inclusion relation admits no infinite descending
chain; and a re-entrant processing of the file (the guard macro being
defined) is a no-op, so no unbounded re-expansion is possible through this
file. -/
theorem c8_termination :
    (fileImports bridgingHeader = [capiPath] ∧ capiPath ≠ bridgingHeaderName) ∧
    (∀ f, Acc (fun a b : String => a ∈ includesOf b) f) ∧
    (∀ ext s, guardMacro ∈ s.defined → processFile ext s = .ok s) := by
  have hne : capiPath ≠ bridgingHeaderName := by decide
  have himp : fileImports bridgingHeader = [capiPath] := by decide
  refine ⟨⟨himp, hne⟩, ?_, ?_⟩
  · intro f
    constructor
    intro a ha
    constructor
    intro b hb
    exfalso
    have hf : a ∈ (if f = bridgingHeaderName then fileImports bridgingHeader else []) := ha
    by_cases hfb : f = bridgingHeaderName
    · rw [if_pos hfb, himp] at hf
      have hacapi : a = capiPath := List.mem_singleton.mp hf
      have : b ∈ (if a = bridgingHeaderName then fileImports bridgingHeader else []) := hb
      rw [hacapi, if_neg hne] at this
      exact List.not_mem_nil b this
    · rw [if_neg hfb] at hf
      exact List.not_mem_nil a hf
  · intro ext s hg
    rw [processFile_eq_runOnce, runOnce_of_guard_defined ext s hg]

/-- Witness for C8 at a concrete input. -/
theorem c8_witness : processFile extW s1 = .ok s1 :=
  c8_termination.2.2 extW s1 (by simp [guardMacro, s1])

end Dictum
